import Mathlib

/-!
Verification of the digital-transformation-index dashboard
(`src/dt_index_deploy.py`) against its specification.

The script loads a spreadsheet of firm-year records, filters them by
year / industry / company-name / stock-code, reports summary statistics
and a top-20 ranking over the filtered view, and charts per-industry
average indices for the selected year.  Numeric columns are modelled by
`ℚ`, tables by `List Record`, and the rendered page by an explicit
output structure whose `Option` fields record which widgets were drawn.
-/

namespace DT

/-- Embeds one row of the loaded table after normalization
(`dt_index_deploy.py` lines 39-44): stock code as string, year as
integer, industry fields defaulted, plus the numeric index and
term-frequency columns (modelled as exact rationals). -/
structure Record where
  stockCode : String
  companyName : String
  industryName : String
  industryCode : String
  year : Int
  idx : ℚ
  totalFreq : ℚ
deriving DecidableEq, Repr

/-- Sentinel industry name substituted for missing values (`'未知行业'`, line 43). -/
def unknownIndustry : String := "未知行业"

/-- Sentinel industry code substituted for missing values (`'未知'`, line 44). -/
def unknownCode : String := "未知"

/-- The "all industries" sentinel offered by the industry selector (`'全部'`, line 77). -/
def allLabel : String := "全部"

/-- Lower-case a character list; models the case folding performed by
`re.IGNORECASE` (ASCII-faithful). -/
def lowerL (l : List Char) : List Char := l.map Char.toLower

/-- Token of the regular-expression sub-language used to model
`pandas.Series.str.contains` (which compiles its argument as a regex,
`regex=True` being the default): a literal character or the `.` wildcard.
Other regex metacharacters are outside the model; theorems about
patterns restrict to this sub-language via `noRegexMeta` or use `.`. -/
inductive RTok where
  | dot : RTok
  | lit : Char → RTok
deriving DecidableEq, Repr

/-- Parses a pattern of the modelled regex sub-language: `.` becomes the
wildcard token, every other character a literal. -/
def parsePat (l : List Char) : List RTok :=
  l.map (fun c => if c = '.' then RTok.dot else RTok.lit c)

/-- Does a single pattern token match a character. -/
def tokMatch : RTok → Char → Bool
  | RTok.dot, _ => true
  | RTok.lit c, d => c == d

/-- Does the pattern match a prefix of the text. -/
def matchHere : List RTok → List Char → Bool
  | [], _ => true
  | _ :: _, [] => false
  | t :: ts, c :: cs => tokMatch t c && matchHere ts cs

/-- Does the pattern match anywhere in the text, as `re.search` does. -/
def searchPat (p : List RTok) : List Char → Bool
  | [] => matchHere p []
  | c :: cs => matchHere p (c :: cs) || searchPat p cs

/-- Embeds `series.str.contains(pat, case=False)` (lines 94 and 97):
the pattern is compiled as a case-insensitive regular expression and
searched anywhere in the cell.  Faithful for patterns whose only
metacharacter is `.`. -/
def pyContainsCI (hay pat : String) : Bool :=
  searchPat (parsePat (lowerL pat.data)) (lowerL hay.data)

/-- Is `p` a prefix of `l` (character lists). -/
def startsWithL : List Char → List Char → Bool
  | [], _ => true
  | _ :: _, [] => false
  | a :: as, b :: bs => a == b && startsWithL as bs

/-- Is `p` a contiguous substring of `l` (character lists). -/
def substrAt (p : List Char) : List Char → Bool
  | [] => p.isEmpty
  | c :: cs => startsWithL p (c :: cs) || substrAt p cs

/-- Written from the spec's words, for comparison with `pyContainsCI`:
"case-insensitive **literal** substring match". -/
def specContainsCI (hay pat : String) : Bool :=
  substrAt (lowerL pat.data) (lowerL hay.data)

/-- Regex metacharacters of Python's `re` module. -/
def regexMetas : List Char :=
  ['.', '^', '$', '*', '+', '?', '\x7b', '\x7d', '[', ']', '\\', '|', '(', ')']

/-- A string free of regex metacharacters, on which `str.contains`
degenerates to literal substring search.  Checked on the case-folded
string (case folding fixes every non-letter, so this agrees with
checking `s` itself). -/
def noRegexMeta (s : String) : Bool := (lowerL s.data).all (fun c => !(regexMetas.contains c))

/-- Embeds line 88: keep the rows of the selected year. -/
def yearFilter (df : List Record) (y : Int) : List Record :=
  df.filter (fun r => r.year == y)

/-- Embeds lines 90-91: exact industry match unless the `'全部'` sentinel
is selected. -/
def industryFilter (l : List Record) (ind : String) : List Record :=
  if ind ≠ allLabel then l.filter (fun r => r.industryName == ind) else l

/-- Embeds lines 93-94: company-name search, skipped for the empty
string (Python truthiness). -/
def companyFilter (l : List Record) (c : String) : List Record :=
  if c ≠ "" then l.filter (fun r => pyContainsCI r.companyName c) else l

/-- Embeds lines 96-97: stock-code search, skipped for the empty string. -/
def stockFilter (l : List Record) (s : String) : List Record :=
  if s ≠ "" then l.filter (fun r => pyContainsCI r.stockCode s) else l

/-- Embeds the whole filter block (lines 87-97): year, then industry,
then company name, then stock code, conjunctively. -/
def applyFilters (df : List Record) (y : Int) (ind c s : String) : List Record :=
  stockFilter (companyFilter (industryFilter (yearFilter df y) ind) c) s

/-- Embeds `series.mean()`: sum divided by length (exact rationals). -/
def colMean (l : List ℚ) : ℚ := l.sum / (l.length : ℚ)

/-- Embeds `series.max()` over a non-empty column; `0` for the empty
column, which the script never reaches (guarded by `filtered_df.empty`). -/
def colMax : List ℚ → ℚ
  | [] => 0
  | x :: xs => xs.foldl max x

/-- Embeds `series.min()` over a non-empty column; `0` for the empty column. -/
def colMin : List ℚ → ℚ
  | [] => 0
  | x :: xs => xs.foldl min x

/-- Rounds to the nearest integer, ties to even, as Python's float
formatting does on the (here exact) value. -/
def roundHalfEven (q : ℚ) : Int :=
  if q - ⌊q⌋ < 1/2 then ⌊q⌋
  else if 1/2 < q - ⌊q⌋ then ⌊q⌋ + 1
  else if ⌊q⌋ % 2 = 0 then ⌊q⌋ else ⌊q⌋ + 1

/-- Embeds the `f"{avg_index:.1f}"` display (line 115): the value shown,
as a rational with one decimal place. -/
def fmt1 (q : ℚ) : ℚ := (roundHalfEven (10 * q) : ℚ) / 10

/-- Embeds Python's `int(...)` on a numeric value (lines 117, 119):
truncation toward zero. -/
def pyInt (q : ℚ) : Int := q.num.tdiv q.den

/-- Descending order on the index column, the sort key of line 134. -/
def idxDesc : Record → Record → Prop := fun a b => b.idx ≤ a.idx

instance : DecidableRel idxDesc := fun a b => inferInstanceAs (Decidable (b.idx ≤ a.idx))

instance : IsTotal Record idxDesc := ⟨fun a b => le_total b.idx a.idx⟩

instance : IsTrans Record idxDesc := ⟨fun _ _ _ h1 h2 => le_trans h2 h1⟩

/-- Embeds lines 134-135: sort the filtered view by index descending and
take the first 20 rows.  (`sort_values` uses an unstable quicksort; the
order among equal indices is unspecified there, and no theorem below
depends on it.) -/
def rankedRows (fl : List Record) : List Record :=
  (List.insertionSort idxDesc fl).take 20

/-- Embeds line 136: prepend the rank column `1 .. len`. -/
def displayRows (fl : List Record) : List (Nat × Record) :=
  (List.range' 1 (rankedRows fl).length).zip (rankedRows fl)

/-- Embeds line 141: the full table restricted to the selected year only. -/
def yearData (df : List Record) (y : Int) : List Record :=
  df.filter (fun r => r.year == y)

/-- The distinct industry names of a slice, the keys of
`groupby('行业名称')` (line 142). -/
def groupNames (l : List Record) : List String :=
  (l.map Record.industryName).dedup

/-- The mean index of one industry group of a slice (line 142). -/
def groupMean (l : List Record) (n : String) : ℚ :=
  colMean ((l.filter (fun r => r.industryName == n)).map Record.idx)

/-- Descending order on the per-group mean, the sort key of line 142. -/
def sndDesc : (String × ℚ) → (String × ℚ) → Prop := fun a b => b.2 ≤ a.2

instance : DecidableRel sndDesc := fun a b => inferInstanceAs (Decidable (b.2 ≤ a.2))

instance : IsTotal (String × ℚ) sndDesc := ⟨fun a b => le_total b.2 a.2⟩

instance : IsTrans (String × ℚ) sndDesc := ⟨fun _ _ _ h1 h2 => le_trans h2 h1⟩

/-- Embeds line 142: group the year slice by industry name, average the
index per group, and sort by average descending. -/
def industryAvg (df : List Record) (y : Int) : List (String × ℚ) :=
  List.insertionSort sndDesc
    ((groupNames (yearData df y)).map (fun n => (n, groupMean (yearData df y) n)))

/-- Embeds line 146: drop the `'未知行业'` group from the chart data. -/
def industryNonUnknown (df : List Record) (y : Int) : List (String × ℚ) :=
  (industryAvg df y).filter (fun p => p.1 != unknownIndustry)

/-- One rendered page.  `Option` fields: `none` means the widget was not
drawn on this run; `Bool` fields flag messages. -/
structure MainOutput where
  countTile : Option Nat
  emptyWarning : Bool
  avgTile : Option ℚ
  maxTile : Option Int
  minTile : Option Int
  histogram : Option (List ℚ)
  rankedTable : Option (List (Nat × Record))
  industryChart : Option (List (String × ℚ))
  industryInfo : Bool
deriving DecidableEq, Repr

/-- Embeds the main render block (lines 100-160) as a function from the
loaded table and the four selections to the widgets drawn: the count
tile is unconditional (line 105); the warning replaces the mean/max/min
tiles on an empty view (lines 107-119); histogram and ranked table are
drawn only for a non-empty view (lines 123-137); the industry section
(lines 141-160) depends on the table and year alone, draws the chart of
the non-unknown groups when more than one group exists, and the info
message when more than one group exists but none survives the unknown
filter. -/
def renderMain (df : List Record) (y : Int) (ind c s : String) : MainOutput :=
  let fl := applyFilters df y ind c s
  let ids := fl.map Record.idx
  let ia := industryAvg df y
  let nu := industryNonUnknown df y
  { countTile := some fl.length
    emptyWarning := fl.isEmpty
    avgTile := if fl.isEmpty then none else some (fmt1 (colMean ids))
    maxTile := if fl.isEmpty then none else some (pyInt (colMax ids))
    minTile := if fl.isEmpty then none else some (pyInt (colMin ids))
    histogram := if fl.isEmpty then none else some ids
    rankedTable := if fl.isEmpty then none else some (displayRows fl)
    industryChart :=
      if 1 < ia.length then
        (if 0 < nu.length then some (nu.take 10) else none)
      else none
    industryInfo := decide (1 < ia.length) && decide (nu.length = 0) }

/-- One pre-normalization row, as read from the spreadsheet (line 31):
cells that may be missing or non-convertible are `Option`s. -/
structure RawRecord where
  stockCell : String
  companyName : String
  industryNameCell : Option String
  industryCodeCell : Option String
  yearCell : Option Int
  idx : ℚ
  totalFreq : ℚ
deriving DecidableEq, Repr

/-- The filesystem and reader the loader runs against: which paths exist
(`os.path.exists`, line 30) and what reading a path yields
(`pd.read_excel`, line 31, which may raise). -/
structure Env where
  pathExists : String → Bool
  readExcel : String → Except String (List RawRecord)

/-- Embeds lines 23-27: the ordered candidate paths probed by the loader. -/
def possiblePaths : List String :=
  ["合并后的数字化转型指数数据.xlsx",
   "./合并后的数字化转型指数数据.xlsx",
   "/app/合并后的数字化转型指数数据.xlsx"]

/-- Embeds lines 39-44 for one row: `astype(int)` on the year cell may
raise (`none`), missing industry cells are filled with the sentinels. -/
def normalizeRow (r : RawRecord) : Option Record :=
  match r.yearCell with
  | none => none
  | some y =>
      some ⟨r.stockCell, r.companyName, r.industryNameCell.getD unknownIndustry,
            r.industryCodeCell.getD unknownCode, y, r.idx, r.totalFreq⟩

/-- Embeds the normalization block (lines 39-44): fails if any row's
year conversion fails. -/
def normalize (rows : List RawRecord) : Option (List Record) :=
  rows.mapM normalizeRow

/-- Embeds `load_data` (lines 18-51): probe the candidate paths in
order, read the first that exists, normalize; `none` on exhaustion
(for-else, line 34-36) or on any raised error (except branch, 47-51). -/
def load_data (env : Env) : Option (List Record) :=
  match possiblePaths.find? env.pathExists with
  | none => none
  | some p =>
      match env.readExcel p with
      | Except.error _ => none
      | Except.ok rows => normalize rows

/-- The whole page of one run: whether the load-failure message was
shown, and the main content (drawn only under the `df is not None`
guard of line 56). -/
structure AppOutput where
  loadErr : Bool
  main : Option MainOutput

/-- Embeds one full script run (lines 54-160): load, then render the
main content only when the load produced a table. -/
def runApp (env : Env) (y : Int) (ind c s : String) : AppOutput :=
  match load_data env with
  | none => ⟨true, none⟩
  | some df => ⟨false, some (renderMain df y ind c s)⟩

/-- Embeds line 65: the sorted distinct years offered by the selector. -/
def yearsList (df : List Record) : List Int :=
  List.insertionSort (fun a b => a ≤ b) (df.map Record.year).dedup

/-- Concrete firm-year record used in concrete instantiations. -/
def recA : Record := ⟨"000001", "平安银行", "金融业", "J66", 2021, 80, 120⟩

/-- Concrete firm-year record used in concrete instantiations. -/
def recB : Record := ⟨"000002", "万科A", "房地产业", "K70", 2021, 90, 150⟩

/-- Concrete firm-year record used in concrete instantiations. -/
def recC : Record := ⟨"600000", "浦发银行", "金融业", "J66", 2020, 10, 30⟩

/-- Concrete three-row table used in concrete instantiations. -/
def exTable : List Record := [recA, recB, recC]

/-- Concrete table whose 2021 slice has a single industry group. -/
def oneIndTable : List Record := [⟨"000003", "甲公司", "制造业", "C13", 2021, 50, 10⟩]

/-- Concrete record whose company name is `abc` (regex test subject). -/
def c3Rec : Record := ⟨"000004", "abc", "制造业", "C13", 2021, 50, 10⟩

/-- Concrete environment in which no candidate data file exists. -/
def envMissing : Env := ⟨fun _ => false, fun _ => Except.error "io error"⟩

/-- On a dot-free pattern, anchored regex matching is prefix matching. -/
theorem matchHere_parsePat (p : List Char) (hp : '.' ∉ p) :
    ∀ l : List Char, matchHere (parsePat p) l = startsWithL p l := by
  induction p with
  | nil => intro l; cases l <;> rfl
  | cons c cs ih =>
    have hc : ¬(c = '.') := fun h => hp (h ▸ List.mem_cons_self c cs)
    have hcs : '.' ∉ cs := fun h => hp (List.mem_cons_of_mem c h)
    intro l
    cases l with
    | nil => simp [parsePat, matchHere, startsWithL]
    | cons d ds =>
      simp only [parsePat, List.map_cons, if_neg hc, matchHere, tokMatch, startsWithL]
      rw [show (cs.map fun c => if c = '.' then RTok.dot else RTok.lit c) = parsePat cs from rfl,
        ih hcs ds]

/-- On a dot-free pattern, unanchored regex search is substring search. -/
theorem searchPat_parsePat (p : List Char) (hp : '.' ∉ p) :
    ∀ l : List Char, searchPat (parsePat p) l = substrAt p l := by
  intro l
  induction l with
  | nil =>
    show matchHere (parsePat p) [] = p.isEmpty
    cases p with
    | nil => rfl
    | cons c cs => rfl
  | cons d ds ih =>
    simp only [searchPat, substrAt, matchHere_parsePat p hp, ih]

/-- A pattern passing the metacharacter check contains no dot after case folding. -/
theorem no_dot_of_noRegexMeta (pat : String) (h : noRegexMeta pat = true) :
    '.' ∉ lowerL pat.data := by
  intro hmem
  have hall := List.all_eq_true.mp h _ hmem
  simp only [regexMetas] at hall
  revert hall
  decide

/-- On metacharacter-free patterns the modelled `str.contains` is exactly
case-insensitive literal substring search. -/
theorem pyContainsCI_eq_spec (hay pat : String) (h : noRegexMeta pat = true) :
    pyContainsCI hay pat = specContainsCI hay pat :=
  searchPat_parsePat (lowerL pat.data) (no_dot_of_noRegexMeta pat h) (lowerL hay.data)

/-- C3 (counterexample): the claim reads `str.contains` as literal
substring search.  With search string `a.c`, the code keeps the row
whose company name is `abc` (the pattern is compiled as a regex, `.`
matching any character), yet `abc` does not contain `a.c` as a literal
substring — so the filtered view is not the claimed set of rows. -/
theorem c3_counterexample :
    companyFilter [c3Rec] "a.c" = [c3Rec] ∧ specContainsCI "abc" "a.c" = false := by
  constructor
  · decide
  · decide

/-- C3 (amended): for every non-empty company-name search string (and
likewise stock-code search string) that is free of regex
metacharacters, the corresponding filter keeps exactly the rows whose
company-name (resp. stock-code) field contains the string as a
case-insensitive literal substring; in general the code hands the
string to the regex engine (`str.contains` defaults to `regex=True`),
so metacharacter patterns can also match rows without a literal
occurrence. -/
theorem c3_substring_filters (l : List Record) (c s : String)
    (hc : c ≠ "") (hmc : noRegexMeta c = true)
    (hs : s ≠ "") (hms : noRegexMeta s = true) :
    (∀ r, r ∈ companyFilter l c ↔ r ∈ l ∧ specContainsCI r.companyName c = true) ∧
    (∀ r, r ∈ stockFilter l s ↔ r ∈ l ∧ specContainsCI r.stockCode s = true) := by
  constructor
  · intro r
    rw [companyFilter, if_pos hc, List.mem_filter, pyContainsCI_eq_spec r.companyName c hmc]
  · intro r
    rw [stockFilter, if_pos hs, List.mem_filter, pyContainsCI_eq_spec r.stockCode s hms]

/-- C3 (witness): the amended theorem applied to a one-row table and the
metacharacter-free search strings `ab` and `00`. -/
theorem c3_witness :
    ("ab" ≠ "" ∧ noRegexMeta "ab" = true ∧ "00" ≠ "" ∧ noRegexMeta "00" = true) ∧
    (c3Rec ∈ companyFilter [c3Rec] "ab" ↔
      c3Rec ∈ [c3Rec] ∧ specContainsCI c3Rec.companyName "ab" = true) :=
  ⟨⟨by decide, by decide, by decide, by decide⟩,
    (c3_substring_filters [c3Rec] "ab" "00" (by decide) (by decide) (by decide) (by decide)).1
      c3Rec⟩

/-- Selecting the `'全部'` industry sentinel skips the industry filter. -/
theorem industryFilter_all (l : List Record) : industryFilter l allLabel = l := by
  simp [industryFilter]

/-- An empty company search box skips the company filter. -/
theorem companyFilter_empty (l : List Record) : companyFilter l "" = l := by
  simp [companyFilter]

/-- An empty stock-code search box skips the stock-code filter. -/
theorem stockFilter_empty (l : List Record) : stockFilter l "" = l := by
  simp [stockFilter]

/-- C7: replacing the industry criterion by the `'全部'` sentinel, or
either text criterion by the empty string, yields the same filtered
view as the pipeline with that filter stage removed: each sentinel is a
no-op for its filter. -/
theorem c7_sentinel_noop (df : List Record) (y : Int) (ind c s : String) :
    applyFilters df y allLabel c s = stockFilter (companyFilter (yearFilter df y) c) s ∧
    applyFilters df y ind "" s = stockFilter (industryFilter (yearFilter df y) ind) s ∧
    applyFilters df y ind c "" = companyFilter (industryFilter (yearFilter df y) ind) c := by
  refine ⟨?_, ?_, ?_⟩
  · rw [applyFilters, industryFilter_all]
  · rw [applyFilters, companyFilter_empty]
  · rw [applyFilters, stockFilter_empty]

/-- C5: filtering by a year present in the table keeps exactly the
records of that year, and every record of the table belongs to the
year-filtered subset of some listed year — the year filter partitions
the table. -/
theorem c5_year_partition (df : List Record) (y : Int) (_hy : y ∈ df.map Record.year) :
    (∀ r, r ∈ yearFilter df y ↔ r ∈ df ∧ r.year = y) ∧
    (∀ r, r ∈ df ↔ ∃ y2 ∈ yearsList df, r ∈ yearFilter df y2) := by
  have hmem : ∀ (r : Record) (z : Int), r ∈ yearFilter df z ↔ r ∈ df ∧ r.year = z := by
    intro r z
    rw [yearFilter, List.mem_filter]
    simp only [beq_iff_eq]
  refine ⟨fun r => hmem r y, fun r => ⟨fun hr => ?_, fun h => ?_⟩⟩
  · refine ⟨r.year, ?_, (hmem r r.year).mpr ⟨hr, rfl⟩⟩
    exact (List.perm_insertionSort _ _).mem_iff.mpr
      (List.mem_dedup.mpr (List.mem_map_of_mem Record.year hr))
  · obtain ⟨y2, _, h2⟩ := h
    exact ((hmem r y2).mp h2).1

/-- C5 (witness): the partition theorem applied to the concrete
three-row table and its year 2021. -/
theorem c5_witness :
    ((2021 : Int) ∈ exTable.map Record.year) ∧
    (recA ∈ yearFilter exTable 2021 ↔ recA ∈ exTable ∧ recA.year = 2021) :=
  ⟨by decide, (c5_year_partition exTable 2021 (by decide)).1 recA⟩

/-- C1 (counterexample): with the three-row table and the (absent) year
2022 selected, the filtered view is empty and the warning is shown, but
the company-count metric tile is still rendered, with value 0 — contra
the claim that no metric tile is rendered for the empty view. -/
theorem c1_counterexample :
    applyFilters exTable 2022 allLabel "" "" = [] ∧
    (renderMain exTable 2022 allLabel "" "").emptyWarning = true ∧
    (renderMain exTable 2022 allLabel "" "").countTile = some 0 := by
  refine ⟨by decide, by decide, by decide⟩

/-- C1 (amended): on an empty filtered view the warning is rendered and
the mean/max/min metric tiles, the histogram, and the ranked table are
all skipped, but the company-count metric tile is still rendered (with
value 0); the count tile of line 105 is outside the emptiness guard. -/
theorem c1_empty_view (df : List Record) (y : Int) (ind c s : String)
    (h : applyFilters df y ind c s = []) :
    (renderMain df y ind c s).emptyWarning = true ∧
    (renderMain df y ind c s).countTile = some 0 ∧
    (renderMain df y ind c s).avgTile = none ∧
    (renderMain df y ind c s).maxTile = none ∧
    (renderMain df y ind c s).minTile = none ∧
    (renderMain df y ind c s).histogram = none ∧
    (renderMain df y ind c s).rankedTable = none := by
  simp [renderMain, h]

/-- C1 (witness): the amended theorem applied to the three-row table
with year 2022 selected, whose filtered view is empty. -/
theorem c1_witness :
    applyFilters exTable 2022 allLabel "" "" = [] ∧
    ((renderMain exTable 2022 allLabel "" "").emptyWarning = true ∧
     (renderMain exTable 2022 allLabel "" "").countTile = some 0 ∧
     (renderMain exTable 2022 allLabel "" "").avgTile = none ∧
     (renderMain exTable 2022 allLabel "" "").maxTile = none ∧
     (renderMain exTable 2022 allLabel "" "").minTile = none ∧
     (renderMain exTable 2022 allLabel "" "").histogram = none ∧
     (renderMain exTable 2022 allLabel "" "").rankedTable = none) :=
  ⟨by decide, c1_empty_view exTable 2022 allLabel "" "" (by decide)⟩

/-- The group keys of the industry comparison are pairwise distinct
(`groupby` keys are the deduplicated industry names). -/
theorem industryAvg_fst_nodup (df : List Record) (y : Int) :
    ((industryAvg df y).map Prod.fst).Nodup := by
  have hperm : List.Perm ((industryAvg df y).map Prod.fst) (groupNames (yearData df y)) := by
    have h1 : List.Perm (industryAvg df y)
        ((groupNames (yearData df y)).map (fun n => (n, groupMean (yearData df y) n))) :=
      List.perm_insertionSort _ _
    have h2 := h1.map Prod.fst
    rw [List.map_map] at h2
    have h3 : List.map (Prod.fst ∘ fun n => (n, groupMean (yearData df y) n))
        (groupNames (yearData df y)) = groupNames (yearData df y) := by
      simp [Function.comp_def]
    rwa [h3] at h2
  exact hperm.nodup_iff.mpr (List.nodup_dedup _)

/-- A duplicate-free list whose elements are all equal has at most one element. -/
theorem nodup_all_eq_length_le_one :
    ∀ {l : List String}, l.Nodup → ∀ a : String, (∀ x ∈ l, x = a) → l.length ≤ 1
  | [], _, _, _ => by simp
  | [_], _, _, _ => by simp
  | x :: y :: t, hn, a, h => by
    exfalso
    have hx : x = a := h x (List.mem_cons_self x (y :: t))
    have hy : y = a := h y (List.mem_cons_of_mem x (List.mem_cons_self y t))
    rw [List.nodup_cons] at hn
    refine hn.1 ?_
    rw [hx.trans hy.symm]
    exact List.mem_cons_self y t

/-- When more than one industry group exists, excluding the unknown
sentinel leaves at least one group: at most one of the pairwise
distinct group keys can be the sentinel. -/
theorem industryNonUnknown_pos (df : List Record) (y : Int)
    (hlen : 1 < (industryAvg df y).length) : 0 < (industryNonUnknown df y).length := by
  by_contra h0
  have hnil : industryNonUnknown df y = [] := by
    cases hmm : industryNonUnknown df y with
    | nil => rfl
    | cons p t => rw [hmm] at h0; simp at h0
  have hall : ∀ p ∈ industryAvg df y, p.1 = unknownIndustry := by
    intro p hp
    have hf := List.filter_eq_nil_iff.mp hnil p hp
    simpa using hf
  have hle : ((industryAvg df y).map Prod.fst).length ≤ 1 := by
    refine nodup_all_eq_length_le_one (industryAvg_fst_nodup df y) unknownIndustry ?_
    intro x hx
    obtain ⟨p, hp, rfl⟩ := List.mem_map.mp hx
    exact hall p hp
  rw [List.length_map] at hle
  omega

/-- C2 (counterexample): with a table whose 2021 slice has exactly one
industry group, the grouping yields fewer than 2 groups, yet the code
renders neither the informational message nor the chart — contra the
claim that an informational message is rendered in place of the chart. -/
theorem c2_counterexample :
    (industryAvg oneIndTable 2021).length < 2 ∧
    (renderMain oneIndTable 2021 allLabel "" "").industryInfo = false ∧
    (renderMain oneIndTable 2021 allLabel "" "").industryChart = none := by
  refine ⟨by decide, by decide, by decide⟩

/-- C2 (amended): when the per-industry grouping of the year-slice
yields fewer than 2 groups the system renders neither the bar chart nor
any informational message, and when it yields 2 or more groups the
chart is always rendered; the informational branch (all groups unknown
after exclusion) is unreachable because the group keys are distinct, so
the informational message is never rendered at all. -/
theorem c2_industry_section (df : List Record) (y : Int) (ind c s : String) :
    (renderMain df y ind c s).industryInfo = false ∧
    ((renderMain df y ind c s).industryChart = none ↔ (industryAvg df y).length ≤ 1) := by
  constructor
  · by_cases hl : 1 < (industryAvg df y).length
    · have hpos : (industryNonUnknown df y).length ≠ 0 :=
        Nat.pos_iff_ne_zero.mp (industryNonUnknown_pos df y hl)
      simp [renderMain, hl, hpos]
    · simp [renderMain, hl]
  · by_cases hl : 1 < (industryAvg df y).length
    · have hpos := industryNonUnknown_pos df y hl
      simp only [renderMain, if_pos hl, if_pos hpos]
      constructor
      · intro h; cases h
      · intro h; omega
    · simp only [renderMain, if_neg hl]
      constructor
      · intro _; omega
      · intro _; trivial

/-- Folding `max` never goes below the initial value. -/
theorem foldl_max_init_le (xs : List ℚ) (a : ℚ) : a ≤ xs.foldl max a := by
  induction xs generalizing a with
  | nil => exact le_refl a
  | cons x t ih => exact le_trans (le_max_left a x) (ih (max a x))

/-- Folding `max` bounds every list element from above. -/
theorem le_foldl_max (xs : List ℚ) : ∀ a x : ℚ, x ∈ xs → x ≤ xs.foldl max a := by
  induction xs with
  | nil => intro a x hx; cases hx
  | cons y t ih =>
    intro a x hx
    rcases List.mem_cons.mp hx with h | h
    · subst h; exact le_trans (le_max_right a x) (foldl_max_init_le t (max a x))
    · exact ih (max a y) x h

/-- Folding `max` yields the initial value or a list element. -/
theorem foldl_max_mem (xs : List ℚ) : ∀ a : ℚ, xs.foldl max a = a ∨ xs.foldl max a ∈ xs := by
  induction xs with
  | nil => intro a; exact Or.inl rfl
  | cons x t ih =>
    intro a
    rcases ih (max a x) with h | h
    · rcases max_choice a x with hm | hm
      · left; show t.foldl max (max a x) = a; rw [h, hm]
      · right; show t.foldl max (max a x) ∈ x :: t; rw [h, hm]; exact List.mem_cons_self x t
    · right; exact List.mem_cons_of_mem x h

/-- The column maximum bounds every element of the column. -/
theorem le_colMax (l : List ℚ) (x : ℚ) (hx : x ∈ l) : x ≤ colMax l := by
  cases l with
  | nil => cases hx
  | cons y t =>
    rcases List.mem_cons.mp hx with h | h
    · subst h; exact foldl_max_init_le t x
    · exact le_foldl_max t y x h

/-- The column maximum of a non-empty column is attained. -/
theorem colMax_mem (l : List ℚ) (h : l ≠ []) : colMax l ∈ l := by
  cases l with
  | nil => exact absurd rfl h
  | cons y t =>
    rcases foldl_max_mem t y with h1 | h1
    · show t.foldl max y ∈ y :: t; rw [h1]; exact List.mem_cons_self y t
    · exact List.mem_cons_of_mem y h1

/-- Folding `min` never goes above the initial value. -/
theorem foldl_min_le_init (xs : List ℚ) (a : ℚ) : xs.foldl min a ≤ a := by
  induction xs generalizing a with
  | nil => exact le_refl a
  | cons x t ih => exact le_trans (ih (min a x)) (min_le_left a x)

/-- Folding `min` bounds every list element from below. -/
theorem foldl_min_le (xs : List ℚ) : ∀ a x : ℚ, x ∈ xs → xs.foldl min a ≤ x := by
  induction xs with
  | nil => intro a x hx; cases hx
  | cons y t ih =>
    intro a x hx
    rcases List.mem_cons.mp hx with h | h
    · subst h; exact le_trans (foldl_min_le_init t (min a x)) (min_le_right a x)
    · exact ih (min a y) x h

/-- Folding `min` yields the initial value or a list element. -/
theorem foldl_min_mem (xs : List ℚ) : ∀ a : ℚ, xs.foldl min a = a ∨ xs.foldl min a ∈ xs := by
  induction xs with
  | nil => intro a; exact Or.inl rfl
  | cons x t ih =>
    intro a
    rcases ih (min a x) with h | h
    · rcases min_choice a x with hm | hm
      · left; show t.foldl min (min a x) = a; rw [h, hm]
      · right; show t.foldl min (min a x) ∈ x :: t; rw [h, hm]; exact List.mem_cons_self x t
    · right; exact List.mem_cons_of_mem x h

/-- The column minimum bounds every element of the column. -/
theorem colMin_le (l : List ℚ) (x : ℚ) (hx : x ∈ l) : colMin l ≤ x := by
  cases l with
  | nil => cases hx
  | cons y t =>
    rcases List.mem_cons.mp hx with h | h
    · subst h; exact foldl_min_le_init t x
    · exact foldl_min_le t y x h

/-- The column minimum of a non-empty column is attained. -/
theorem colMin_mem (l : List ℚ) (h : l ≠ []) : colMin l ∈ l := by
  cases l with
  | nil => exact absurd rfl h
  | cons y t =>
    rcases foldl_min_mem t y with h1 | h1
    · show t.foldl min y ∈ y :: t; rw [h1]; exact List.mem_cons_self y t
    · exact List.mem_cons_of_mem y h1

/-- The top-20 slice of the sorted view is sorted by index descending. -/
theorem rankedRows_sorted (fl : List Record) : List.Sorted idxDesc (rankedRows fl) :=
  List.Pairwise.sublist (List.take_sublist 20 _) (List.sorted_insertionSort idxDesc fl)

/-- The ranked slice has `min 20 n` rows for a view of `n` rows. -/
theorem rankedRows_length (fl : List Record) : (rankedRows fl).length = min 20 fl.length := by
  rw [rankedRows, List.length_take, List.length_insertionSort]

/-- The display table is the ranked slice with ranks `1..N` prepended. -/
theorem displayRows_map_snd (fl : List Record) :
    (displayRows fl).map Prod.snd = rankedRows fl := by
  rw [displayRows]
  exact List.map_snd_zip _ _ (le_of_eq (List.length_range' 1 1 (rankedRows fl).length).symm)

/-- The rank column of the display table is exactly `1..N`. -/
theorem displayRows_map_fst (fl : List Record) :
    (displayRows fl).map Prod.fst = List.range' 1 (rankedRows fl).length := by
  rw [displayRows]
  exact List.map_fst_zip _ _ (le_of_eq (List.length_range' 1 1 (rankedRows fl).length))

/-- The display table has as many rows as the ranked slice. -/
theorem displayRows_length (fl : List Record) :
    (displayRows fl).length = (rankedRows fl).length := by
  rw [displayRows, List.length_zip, List.length_range', Nat.min_self]

/-- On a non-empty view the display table starts with rank 1 holding a
record of maximal index. -/
theorem displayRows_head (fl : List Record) (h : fl ≠ []) :
    ∃ r rest, displayRows fl = (1, r) :: rest ∧
      r.idx = colMax (fl.map Record.idx) ∧ ∀ x ∈ fl, x.idx ≤ r.idx := by
  obtain ⟨a, t, hs⟩ : ∃ a t, List.insertionSort idxDesc fl = a :: t := by
    cases hsort : List.insertionSort idxDesc fl with
    | nil =>
      exfalso
      have hlen := List.length_insertionSort idxDesc fl
      rw [hsort] at hlen
      exact h (List.length_eq_zero.mp hlen.symm)
    | cons a t => exact ⟨a, t, rfl⟩
  have hub : ∀ x ∈ fl, x.idx ≤ a.idx := by
    intro x hx
    have hx2 : x ∈ a :: t := by
      rw [← hs]; exact (List.mem_insertionSort idxDesc).mpr hx
    rcases List.mem_cons.mp hx2 with h2 | h2
    · subst h2; exact le_refl x.idx
    · have hsorted : List.Sorted idxDesc (a :: t) := by
        rw [← hs]; exact List.sorted_insertionSort idxDesc fl
      exact List.rel_of_sorted_cons hsorted x h2
  have hamem : a ∈ fl := by
    have : a ∈ a :: t := List.mem_cons_self a t
    rw [← hs] at this
    exact (List.mem_insertionSort idxDesc).mp this
  have hmax : a.idx = colMax (fl.map Record.idx) := by
    refine le_antisymm (le_colMax _ _ (List.mem_map_of_mem Record.idx hamem)) ?_
    have hmapne : fl.map Record.idx ≠ [] := by
      intro hnil
      exact h (List.map_eq_nil_iff.mp hnil)
    obtain ⟨b, hb, hbeq⟩ := List.mem_map.mp (colMax_mem (fl.map Record.idx) hmapne)
    rw [← hbeq]
    exact hub b hb
  have hranked : rankedRows fl = a :: t.take 19 := by
    rw [rankedRows, hs, List.take_succ_cons]
  refine ⟨a, (List.range' 2 (t.take 19).length).zip (t.take 19), ?_, hmax, hub⟩
  rw [displayRows, hranked]
  rw [show (a :: t.take 19).length = (t.take 19).length + 1 from rfl]
  rw [List.range'_succ]
  rfl

/-- C4: the displayed ranked table is correct: its record column is the
filtered view sorted by index descending (top 20), its rank column is
exactly `1..N` where `N = min 20 (view size)`, and on a non-empty view
rank 1 holds a record attaining the maximum index of the whole view. -/
theorem c4_ranking (df : List Record) (y : Int) (ind c s : String) :
    List.Sorted idxDesc (rankedRows (applyFilters df y ind c s)) ∧
    (displayRows (applyFilters df y ind c s)).map Prod.snd =
      rankedRows (applyFilters df y ind c s) ∧
    (displayRows (applyFilters df y ind c s)).map Prod.fst =
      List.range' 1 (displayRows (applyFilters df y ind c s)).length ∧
    (displayRows (applyFilters df y ind c s)).length =
      min 20 (applyFilters df y ind c s).length ∧
    (applyFilters df y ind c s ≠ [] →
      ∃ r rest, displayRows (applyFilters df y ind c s) = (1, r) :: rest ∧
        r.idx = colMax ((applyFilters df y ind c s).map Record.idx) ∧
        ∀ x ∈ applyFilters df y ind c s, x.idx ≤ r.idx) := by
  refine ⟨rankedRows_sorted _, displayRows_map_snd _, ?_, ?_, displayRows_head _⟩
  · rw [displayRows_map_fst, displayRows_length]
  · rw [displayRows_length, rankedRows_length]

/-- C4 (witness): the ranking theorem applied to the three-row table
with year 2021 selected, whose filtered view is non-empty. -/
theorem c4_witness :
    applyFilters exTable 2021 allLabel "" "" ≠ [] ∧
    (∃ r rest, displayRows (applyFilters exTable 2021 allLabel "" "") = (1, r) :: rest ∧
      r.idx = colMax ((applyFilters exTable 2021 allLabel "" "").map Record.idx) ∧
      ∀ x ∈ applyFilters exTable 2021 allLabel "" "", x.idx ≤ r.idx) :=
  ⟨by decide, (c4_ranking exTable 2021 allLabel "" "").2.2.2.2 (by decide)⟩

/-- The chart data (before the top-10 cut) is sorted by group average
descending. -/
theorem industryNonUnknown_sorted (df : List Record) (y : Int) :
    List.Sorted sndDesc (industryNonUnknown df y) :=
  List.Pairwise.sublist (List.filter_sublist _) (List.sorted_insertionSort sndDesc _)

/-- Every entry of the industry comparison is an industry name of the
year slice paired with that group's mean index. -/
theorem industryAvg_mem (df : List Record) (y : Int) (p : String × ℚ)
    (hp : p ∈ industryAvg df y) :
    p.1 ∈ groupNames (yearData df y) ∧ p.2 = groupMean (yearData df y) p.1 := by
  have hmem : p ∈ (groupNames (yearData df y)).map
      (fun n => (n, groupMean (yearData df y) n)) :=
    (List.perm_insertionSort sndDesc _).subset hp
  obtain ⟨n, hn, hneq⟩ := List.mem_map.mp hmem
  subst hneq
  exact ⟨hn, rfl⟩

/-- C6: the industry comparison chart is unchanged by the industry,
company-name, and stock-code criteria (it is recomputed from the full
table restricted to the selected year); it is drawn exactly when more
than one industry group exists and then shows the first 10 groups after
excluding the unknown-industry sentinel; the remaining chart data is
sorted by group mean descending and every entry is a non-sentinel
industry name of the year slice paired with that group's mean index —
in particular the sentinel is excluded even when its average is
highest. -/
theorem c6_industry_comparison (df : List Record) (y : Int)
    (ind c s ind2 c2 s2 : String) :
    (renderMain df y ind c s).industryChart = (renderMain df y ind2 c2 s2).industryChart ∧
    (renderMain df y ind c s).industryChart =
      (if 1 < (industryAvg df y).length
        then some ((industryNonUnknown df y).take 10) else none) ∧
    List.Sorted sndDesc ((industryNonUnknown df y).take 10) ∧
    (∀ p ∈ (industryNonUnknown df y).take 10,
      p.1 ≠ unknownIndustry ∧ p.1 ∈ groupNames (yearData df y) ∧
      p.2 = groupMean (yearData df y) p.1) := by
  refine ⟨rfl, ?_, ?_, ?_⟩
  · by_cases hl : 1 < (industryAvg df y).length
    · have hpos := industryNonUnknown_pos df y hl
      simp [renderMain, hl, hpos]
    · simp [renderMain, hl]
  · exact List.Pairwise.sublist (List.take_sublist 10 _) (industryNonUnknown_sorted df y)
  · intro p hp
    have hnu : p ∈ industryNonUnknown df y := (List.take_sublist 10 _).subset hp
    have hf := List.mem_filter.mp hnu
    have hne : p.1 ≠ unknownIndustry := by
      have := hf.2
      simpa using this
    obtain ⟨h1, h2⟩ := industryAvg_mem df y p hf.1
    exact ⟨hne, h1, h2⟩

/-- C6 (witness): the comparison theorem applied to the one-industry
table, two distinct criteria sets, and the single chart-data entry. -/
theorem c6_witness :
    (renderMain oneIndTable 2021 allLabel "" "").industryChart =
      (renderMain oneIndTable 2021 "金融业" "a" "b").industryChart ∧
    (("制造业", groupMean (yearData oneIndTable 2021) "制造业").1 ≠ unknownIndustry ∧
     ("制造业", groupMean (yearData oneIndTable 2021) "制造业").1 ∈
       groupNames (yearData oneIndTable 2021) ∧
     ("制造业", groupMean (yearData oneIndTable 2021) "制造业").2 =
       groupMean (yearData oneIndTable 2021)
         ("制造业", groupMean (yearData oneIndTable 2021) "制造业").1) :=
  ⟨(c6_industry_comparison oneIndTable 2021 allLabel "" "" "金融业" "a" "b").1,
   (c6_industry_comparison oneIndTable 2021 allLabel "" "" "金融业" "a" "b").2.2.2
     ("制造业", groupMean (yearData oneIndTable 2021) "制造业")
     (List.mem_cons_self _ _)⟩

/-- Rounding half-to-even lands within one half of the input. -/
theorem roundHalfEven_close (q : ℚ) : |(roundHalfEven q : ℚ) - q| ≤ 1/2 := by
  have h0 : ((⌊q⌋ : ℤ) : ℚ) ≤ q := Int.floor_le q
  have h1 : q < ⌊q⌋ + 1 := Int.lt_floor_add_one q
  rw [roundHalfEven]
  by_cases hlt : q - (⌊q⌋ : ℚ) < 1/2
  · rw [if_pos hlt, abs_sub_comm, abs_of_nonneg (by linarith)]
    linarith
  · rw [if_neg hlt]
    by_cases hgt : (1 : ℚ)/2 < q - (⌊q⌋ : ℚ)
    · rw [if_pos hgt]
      push_cast
      rw [abs_of_nonneg (by linarith)]
      linarith
    · rw [if_neg hgt]
      by_cases hev : ⌊q⌋ % 2 = 0
      · rw [if_pos hev, abs_sub_comm, abs_of_nonneg (by linarith)]
        linarith
      · rw [if_neg hev]
        push_cast
        rw [abs_of_nonneg (by linarith)]
        linarith

/-- The one-decimal display is within one twentieth of the displayed value. -/
theorem fmt1_close (q : ℚ) : |fmt1 q - q| ≤ 1/20 := by
  have h := roundHalfEven_close (10 * q)
  rw [fmt1]
  have heq : (roundHalfEven (10 * q) : ℚ)/10 - q =
      ((roundHalfEven (10 * q) : ℚ) - 10 * q)/10 := by ring
  rw [heq, abs_div, abs_of_pos (show (0:ℚ) < 10 by norm_num)]
  linarith

/-- C8: on a non-empty filtered view the mean tile reports the
arithmetic mean of the index column rounded to one decimal place (an
integer numerator over 10, within 1/20 of the true mean), and the
max/min tiles report the true maximum and minimum of the index column
converted to integer by truncation. -/
theorem c8_summary_stats (df : List Record) (y : Int) (ind c s : String)
    (h : applyFilters df y ind c s ≠ []) :
    ((renderMain df y ind c s).avgTile =
        some (fmt1 (colMean ((applyFilters df y ind c s).map Record.idx))) ∧
      fmt1 (colMean ((applyFilters df y ind c s).map Record.idx)) =
        (roundHalfEven (10 * colMean ((applyFilters df y ind c s).map Record.idx)) : ℚ) / 10 ∧
      |fmt1 (colMean ((applyFilters df y ind c s).map Record.idx)) -
        colMean ((applyFilters df y ind c s).map Record.idx)| ≤ 1/20) ∧
    ((renderMain df y ind c s).maxTile =
        some (pyInt (colMax ((applyFilters df y ind c s).map Record.idx))) ∧
      colMax ((applyFilters df y ind c s).map Record.idx) ∈
        (applyFilters df y ind c s).map Record.idx ∧
      ∀ x ∈ (applyFilters df y ind c s).map Record.idx,
        x ≤ colMax ((applyFilters df y ind c s).map Record.idx)) ∧
    ((renderMain df y ind c s).minTile =
        some (pyInt (colMin ((applyFilters df y ind c s).map Record.idx))) ∧
      colMin ((applyFilters df y ind c s).map Record.idx) ∈
        (applyFilters df y ind c s).map Record.idx ∧
      ∀ x ∈ (applyFilters df y ind c s).map Record.idx,
        colMin ((applyFilters df y ind c s).map Record.idx) ≤ x) := by
  have hne : (applyFilters df y ind c s).isEmpty = false := by
    cases hfl : applyFilters df y ind c s with
    | nil => exact absurd hfl h
    | cons a t => rfl
  have hmapne : (applyFilters df y ind c s).map Record.idx ≠ [] := by
    intro hnil
    exact h (List.map_eq_nil_iff.mp hnil)
  refine ⟨⟨?_, rfl, fmt1_close _⟩, ⟨?_, colMax_mem _ hmapne, fun x hx => le_colMax _ x hx⟩,
    ⟨?_, colMin_mem _ hmapne, fun x hx => colMin_le _ x hx⟩⟩
  · simp [renderMain, hne]
  · simp [renderMain, hne]
  · simp [renderMain, hne]

/-- C8 (witness): the summary theorem applied to the three-row table
with year 2021 selected, whose filtered view is non-empty. -/
theorem c8_witness :
    applyFilters exTable 2021 allLabel "" "" ≠ [] ∧
    (renderMain exTable 2021 allLabel "" "").avgTile =
      some (fmt1 (colMean ((applyFilters exTable 2021 allLabel "" "").map Record.idx))) :=
  ⟨by decide, ((c8_summary_stats exTable 2021 allLabel "" "" (by decide)).1).1⟩

/-- A successful `find?` splits its list at the first hit: everything
before the hit fails the predicate. -/
theorem find?_first {α : Type} (P : α → Bool) :
    ∀ (l : List α) (a : α), l.find? P = some a →
      ∃ l1 l2, l = l1 ++ a :: l2 ∧ ∀ x ∈ l1, P x = false := by
  intro l
  induction l with
  | nil => intro a h; cases h
  | cons x t ih =>
    intro a h
    by_cases hx : P x = true
    · rw [List.find?_cons_of_pos t hx] at h
      injection h with h2
      subst h2
      exact ⟨[], t, rfl, by intro z hz; cases hz⟩
    · rw [List.find?_cons_of_neg t hx] at h
      obtain ⟨l1, l2, hsplit, hall⟩ := ih a h
      refine ⟨x :: l1, l2, by rw [hsplit]; rfl, ?_⟩
      intro z hz
      rcases List.mem_cons.mp hz with h2 | h2
      · subst h2
        cases hPz : P z
        · rfl
        · exact absurd hPz hx
      · exact hall z h2

/-- C9: the loader probes the candidate paths in order and reads the
first that exists (everything before it does not exist); when no
candidate exists, or reading raises, or normalization fails, it returns
an absent table; and a run with an absent table shows the failure flag
and renders no main content, while a run with a table renders it. -/
theorem c9_loader (env : Env) (y : Int) (ind c s : String) :
    ((∀ p ∈ possiblePaths, env.pathExists p = false) → load_data env = none) ∧
    (∀ p, possiblePaths.find? env.pathExists = some p →
      env.pathExists p = true ∧
      (∃ l1 l2, possiblePaths = l1 ++ p :: l2 ∧ ∀ q ∈ l1, env.pathExists q = false) ∧
      (∀ e, env.readExcel p = Except.error e → load_data env = none) ∧
      (∀ rows, env.readExcel p = Except.ok rows → load_data env = normalize rows)) ∧
    (load_data env = none →
      (runApp env y ind c s).loadErr = true ∧ (runApp env y ind c s).main = none) ∧
    (∀ df, load_data env = some df →
      (runApp env y ind c s).main = some (renderMain df y ind c s)) := by
  refine ⟨?_, ?_, ?_, ?_⟩
  · intro hall
    have hnone : possiblePaths.find? env.pathExists = none := by
      rw [List.find?_eq_none]
      intro p hp
      rw [hall p hp]
      exact Bool.false_ne_true
    rw [load_data, hnone]
  · intro p hp
    refine ⟨List.find?_some hp, find?_first env.pathExists possiblePaths p hp, ?_, ?_⟩
    · intro e he
      rw [load_data, hp]
      dsimp only
      rw [he]
    · intro rows hrows
      rw [load_data, hp]
      dsimp only
      rw [hrows]
  · intro hnone
    rw [runApp, hnone]
    exact ⟨rfl, rfl⟩
  · intro df hdf
    rw [runApp, hdf]

/-- C9 (witness): the loader theorem applied to the environment in
which no candidate path exists. -/
theorem c9_witness :
    (∀ p ∈ possiblePaths, envMissing.pathExists p = false) ∧
    load_data envMissing = none ∧
    (runApp envMissing 2021 allLabel "" "").loadErr = true ∧
    (runApp envMissing 2021 allLabel "" "").main = none :=
  ⟨by decide,
   (c9_loader envMissing 2021 allLabel "" "").1 (by decide),
   (c9_loader envMissing 2021 allLabel "" "").2.2.1
     ((c9_loader envMissing 2021 allLabel "" "").1 (by decide))⟩

/-- C10: for a fixed loaded table and fixed selections the pipeline is
deterministic — two renders of the same inputs agree on every widget:
count, mean, max, min, histogram, ranked rows, industry chart, and both
messages. -/
theorem c10_deterministic (df : List Record) (y : Int) (ind c s : String)
    (o1 o2 : MainOutput)
    (h1 : o1 = renderMain df y ind c s) (h2 : o2 = renderMain df y ind c s) :
    o1.countTile = o2.countTile ∧ o1.avgTile = o2.avgTile ∧ o1.maxTile = o2.maxTile ∧
    o1.minTile = o2.minTile ∧ o1.histogram = o2.histogram ∧
    o1.rankedTable = o2.rankedTable ∧ o1.industryChart = o2.industryChart ∧
    o1.emptyWarning = o2.emptyWarning ∧ o1.industryInfo = o2.industryInfo := by
  subst h1
  subst h2
  exact ⟨rfl, rfl, rfl, rfl, rfl, rfl, rfl, rfl, rfl⟩

/-- C10 (witness): the determinism theorem applied to two renders of
the three-row table under identical selections. -/
theorem c10_witness :
    (renderMain exTable 2021 allLabel "" "").countTile =
      (renderMain exTable 2021 allLabel "" "").countTile :=
  (c10_deterministic exTable 2021 allLabel "" ""
    (renderMain exTable 2021 allLabel "" "") (renderMain exTable 2021 allLabel "" "")
    rfl rfl).1

end DT
